import Mathlib

/-!
Verification of the basketball-tournament simulator (src/basket.js).

The program is shallowly embedded below.  Conventions of the embedding:

* The eight knockout teams are identified with their rank index in the
  `rankedTeams` list: `TeamId := Fin 8`, so rank 1 is `0`, ..., rank 8 is `7`.
  The hats of `drawKnockoutStage` are then the concrete lists
  `D = [0,1]`, `E = [2,3]`, `F = [4,5]`, `G = [6,7]`.
* The adjacency structure `groupStageMatches` (built by
  `recordGroupStageMatch`) is abstracted as a boolean relation
  `played : TeamId → TeamId → Bool`; `played a b` models
  `groupStageMatches[a.name]?.has(b.name)`.
* The unbounded `while (!tryPairing())` retry loop of `drawKnockoutStage`
  is modelled with explicit fuel; `none` means the loop has not returned
  within the given number of iterations (for every fuel it is `none`
  exactly when the JavaScript loop runs forever).
* The stochastic match scores of `simulateGamePoisson` and the penalty
  draws of `simulatePenaltyShootout` are abstracted as oracle streams
  `scores pens : ℕ → ℕ × ℕ` consumed in program order: `scores i` is the
  score pair of the i-th knockout match played, `pens j` the result pair
  of the j-th penalty shootout run.  `Math.random()` draws are modelled
  as rationals in `[0,1)`; `Math.exp (-lambda)` is passed to the Poisson
  sampler as its precomputed threshold `L`.
-/

/-- A knockout-stage team, identified with its index 0..7 in the ranked
top-8 list (`rankedTeams`) from which `drawKnockoutStage` builds the hats. -/
abbrev TeamId := Fin 8

/-- Hat `D` of `drawKnockoutStage`: `[rankedTeams[0], rankedTeams[1]]` (ranks 1-2). -/
def hatD0 : List TeamId := [0, 1]

/-- Hat `E` of `drawKnockoutStage`: ranks 3-4. -/
def hatE0 : List TeamId := [2, 3]

/-- Hat `F` of `drawKnockoutStage`: ranks 5-6. -/
def hatF0 : List TeamId := [4, 5]

/-- Hat `G` of `drawKnockoutStage`: ranks 7-8. -/
def hatG0 : List TeamId := [6, 7]

/-- The mutable `hats` object of `drawKnockoutStage` (src/basket.js:207-212). -/
structure Hats where
  D : List TeamId
  E : List TeamId
  F : List TeamId
  G : List TeamId
deriving DecidableEq

/-- The hats as initialised from the ranked top-8 list (src/basket.js:207-212). -/
def initHats : Hats := ⟨hatD0, hatE0, hatF0, hatG0⟩

/-- `recordGroupStageMatch` (src/basket.js:134-143): adds the unordered pair
to the adjacency structure, i.e. sets both directions of the relation. -/
def recordGroupStageMatch (played : TeamId → TeamId → Bool) (t1 t2 : TeamId) :
    TeamId → TeamId → Bool :=
  fun a b => played a b || (a == t1 && b == t2) || (a == t2 && b == t1)

/-- `isMatchAlreadyPlayed` (src/basket.js:218-220):
`groupStageMatches[team1.name]?.has(team2.name)`. -/
def isMatchAlreadyPlayed (played : TeamId → TeamId → Bool) (t1 t2 : TeamId) : Bool :=
  played t1 t2

/-- `findOpponent` (src/basket.js:223-230): scan the target hat in order and
return the first opponent that has not been played and is not yet used. -/
def findOpponent (played : TeamId → TeamId → Bool) (used : List TeamId)
    (team : TeamId) (tgt : List TeamId) : Option TeamId :=
  tgt.find? (fun opp => !isMatchAlreadyPlayed played team opp && !decide (opp ∈ used))

/-- One `for (const team1 of hats.X)` loop of `tryPairing`
(src/basket.js:234-250): for each source-hat team in order, pair it with
`findOpponent`'s choice from the target hat (if any), accumulating the
quarter-final pairs and the used-team set. -/
def pairLoop (played : TeamId → TeamId → Bool) (tgt : List TeamId) :
    List TeamId → List (TeamId × TeamId) × List TeamId →
      List (TeamId × TeamId) × List TeamId
  | [], acc => acc
  | t1 :: rest, acc =>
      match findOpponent played acc.2 t1 tgt with
      | some opp => pairLoop played tgt rest (acc.1 ++ [(t1, opp)], acc.2 ++ [t1, opp])
      | none => pairLoop played tgt rest acc

/-- `tryPairing` (src/basket.js:233-254): run the D-versus-G loop, then the
E-versus-F loop, starting from empty `quarterFinals` and `usedTeams`.
The attempt succeeds when the resulting list has exactly 4 pairs. -/
def tryPairing (played : TeamId → TeamId → Bool) (h : Hats) : List (TeamId × TeamId) :=
  (pairLoop played h.F h.E (pairLoop played h.G h.D ([], []))).1

/-- `reorderTeams` (src/basket.js:257-260): rotate a hat by moving its first
team to the end (`shift` then `push`). -/
def reorderTeams : List TeamId → List TeamId
  | [] => []
  | x :: xs => xs ++ [x]

/-- The rotation applied after a failed attempt (src/basket.js:269-270):
hats `G` and `F` are each rotated once; `D` and `E` are never touched. -/
def rotateHats (h : Hats) : Hats :=
  ⟨h.D, h.E, reorderTeams h.F, reorderTeams h.G⟩

/-- `drawKnockoutStage`'s retry loop (src/basket.js:263-271), with explicit
fuel standing for the number of `tryPairing` attempts allowed: return the
quarter-finals of the first successful attempt, rotating `G` and `F` after
each failure.  `none` means the unbounded JavaScript loop has not returned
within `fuel` iterations. -/
def drawKnockoutStage (played : TeamId → TeamId → Bool) :
    ℕ → Hats → Option (List (TeamId × TeamId))
  | 0, _ => none
  | fuel + 1, h =>
      if (tryPairing played h).length = 4 then some (tryPairing played h)
      else drawKnockoutStage played fuel (rotateHats h)

/-- The JavaScript loop runs forever on this input: no amount of fuel makes
the modelled `drawKnockoutStage` return. -/
def drawDiverges (played : TeamId → TeamId → Bool) (h : Hats) : Prop :=
  ∀ fuel, drawKnockoutStage played fuel h = none

/-- All teams occurring in a list of pairs, in order (first, second, next pair ...). -/
def teamsOf : List (TeamId × TeamId) → List TeamId
  | [] => []
  | p :: rest => p.1 :: p.2 :: teamsOf rest

/-- The draw constraints claimed for a returned bracket: exactly 4 pairs,
every pair is a hat-D team against a hat-G team or a hat-E team against a
hat-F team with no recorded group-stage match between them, and each of
the 8 teams lies in exactly one pair. -/
abbrev validBracket (played : TeamId → TeamId → Bool) (qf : List (TeamId × TeamId)) : Prop :=
  qf.length = 4 ∧
  (∀ p ∈ qf, ((p.1 ∈ hatD0 ∧ p.2 ∈ hatG0) ∨ (p.1 ∈ hatE0 ∧ p.2 ∈ hatF0)) ∧
    played p.1 p.2 = false) ∧
  ∀ t : TeamId, qf.countP (fun p => decide (p.1 = t) || decide (p.2 = t)) = 1

/-- The group-stage history used as counterexample input for the draw's
completeness: rank 2 has played rank 7 (indices 1 and 6) and rank 4 has
played rank 6 (indices 3 and 5), symmetrically recorded. -/
def playedCE : TeamId → TeamId → Bool := fun a b =>
  (a == 1 && b == 6) || (a == 6 && b == 1) || (a == 3 && b == 5) || (a == 5 && b == 3)

/-- A complete group-stage history: every pair of distinct teams has already
played.  Under it no valid pairing exists at all. -/
def playedComplete : TeamId → TeamId → Bool := fun a b => !(a == b)

/-! ## Knockout-round simulation (src/basket.js:299-368) -/

/-- `simulateKnockoutStage`'s result (champion and runner-up,
src/basket.js:361), instrumented with the number of penalty shootouts that
were run on the way (ghost observer; the code itself keeps no such count). -/
structure KnockoutResult where
  champion : TeamId
  runnerUp : TeamId
  pensUsed : ℕ
deriving DecidableEq

/-- One quarter-final or semi-final match (src/basket.js:303-323 and
328-349): draw the match's score pair from the `scores` oracle; on a tie
run one penalty shootout from the `pens` oracle and advance team 1 exactly
when its penalty score is strictly higher, otherwise advance the team with
the strictly higher match score.  Returns the advancing team and the
updated shootout counter. -/
def playMatch (scores pens : ℕ → ℕ × ℕ) (mi pi : ℕ) (t1 t2 : TeamId) : TeamId × ℕ :=
  let s := scores mi
  if s.1 = s.2 then
    let p := pens pi
    (if p.2 < p.1 then t1 else t2, pi + 1)
  else
    (if s.2 < s.1 then t1 else t2, pi)

/-- Play a round's matches in order, threading the match index and the
shootout counter; returns the advancing teams in bracket order. -/
def playRound (scores pens : ℕ → ℕ × ℕ) :
    List (TeamId × TeamId) → ℕ → ℕ → List TeamId × ℕ × ℕ
  | [], mi, pi => ([], mi, pi)
  | (t1, t2) :: rest, mi, pi =>
      let r := playMatch scores pens mi pi t1 t2
      let w := playRound scores pens rest (mi + 1) r.2
      (r.1 :: w.1, w.2)

/-- The `while (semiFinals.length > 1)` pairing (src/basket.js:328-329):
take the advancing teams two at a time in order. -/
def pairUp : List TeamId → List (TeamId × TeamId)
  | t1 :: t2 :: rest => (t1, t2) :: pairUp rest
  | _ => []

/-- The quarter-final and semi-final rounds of `simulateKnockoutStage`
(src/basket.js:303-349): the finalists list together with the next match
index and the shootout counter reached. -/
def knockoutPrefix (scores pens : ℕ → ℕ × ℕ) (qf : List (TeamId × TeamId)) :
    List TeamId × ℕ × ℕ :=
  let r1 := playRound scores pens qf 0 0
  playRound scores pens (pairUp r1.1) r1.2.1 r1.2.2

/-- The final (src/basket.js:352-361): `champion` is finalist 1 exactly when
its score is strictly higher, `runnerUp` is finalist 1 exactly when its
score is strictly lower.  No penalty shootout is consulted here. -/
def runFinal (f1 f2 : TeamId) (s : ℕ × ℕ) : TeamId × TeamId :=
  (if s.2 < s.1 then f1 else f2, if s.1 < s.2 then f1 else f2)

/-- `simulateKnockoutStage` (src/basket.js:299-362): quarter-finals, then
semi-finals, then the final between the first two teams of the finals
list.  `none` models the crash on a malformed bracket (fewer than two
finalists). -/
def simulateKnockoutStage (scores pens : ℕ → ℕ × ℕ) (qf : List (TeamId × TeamId)) :
    Option KnockoutResult :=
  let r := knockoutPrefix scores pens qf
  match r.1 with
  | f1 :: f2 :: _ =>
      some ⟨(runFinal f1 f2 (scores r.2.1)).1, (runFinal f1 f2 (scores r.2.1)).2, r.2.2⟩
  | _ => none

/-- `simulatePenaltyShootout` (src/basket.js:364-368):
`Math.floor(Math.random() * 5)` for each side, with the two uniform draws
in `[0,1)` passed explicitly. -/
def simulatePenaltyShootout (u1 u2 : ℚ) : ℕ × ℕ :=
  ((⌊u1 * 5⌋).toNat, (⌊u2 * 5⌋).toNat)

/-! ## Team statistics (src/basket.js:3-31 and 171-182) -/

/-- `Tournament.WIN_POINTS` (src/basket.js:34). -/
def WIN_POINTS : ℕ := 2

/-- `Tournament.LOSS_POINTS` (src/basket.js:35). -/
def LOSS_POINTS : ℕ := 1

/-- `Tournament.TEAM_RANK_LIMIT` (src/basket.js:36). -/
def TEAM_RANK_LIMIT : ℕ := 8

/-- The `Team` class (src/basket.js:3-31). -/
structure Team where
  name : String
  ranking : ℚ
  wins : ℕ
  losses : ℕ
  points : ℕ
  scored : ℕ
  conceded : ℕ

/-- `Team.updateScores` (src/basket.js:14-17). -/
def updateScores (t : Team) (scored conceded : ℕ) : Team :=
  { t with scored := t.scored + scored, conceded := t.conceded + conceded }

/-- `Team.updatePoints` (src/basket.js:19-26): add the points, then count a
win exactly when the added points equal `WIN_POINTS`, a loss otherwise. -/
def updatePoints (t : Team) (points : ℕ) : Team :=
  if points = WIN_POINTS then
    { t with points := t.points + points, wins := t.wins + 1 }
  else
    { t with points := t.points + points, losses := t.losses + 1 }

/-- `Team.goalDifference` (src/basket.js:28-30). -/
def goalDifference (t : Team) : ℤ := (t.scored : ℤ) - (t.conceded : ℤ)

/-- `updateMatchResults` (src/basket.js:171-182): both teams' scored and
conceded are updated symmetrically; on a strict winner the winner gets
`WIN_POINTS` and the loser `LOSS_POINTS`; on a tie neither
`updatePoints` call happens. -/
def updateMatchResults (t1 t2 : Team) (s1 s2 : ℕ) : Team × Team :=
  let u1 := updateScores t1 s1 s2
  let u2 := updateScores t2 s2 s1
  if s1 > s2 then (updatePoints u1 WIN_POINTS, updatePoints u2 LOSS_POINTS)
  else if s2 > s1 then (updatePoints u1 LOSS_POINTS, updatePoints u2 WIN_POINTS)
  else (u1, u2)

/-- The implicit accounting invariant relating points to wins and losses. -/
def pointsInvariant (t : Team) : Prop :=
  t.points = WIN_POINTS * t.wins + LOSS_POINTS * t.losses

/-! ## Poisson score generation (src/basket.js:145-169) -/

/-- The `do { k++; p *= Math.random() } while (p > L)` loop of
`generatePoissonScore` (src/basket.js:164-168), consuming the uniform
draws from the given list; `none` when the list is exhausted before the
running product falls to `L` or below.  Returns `k - 1` as an integer,
exactly as the source computes it. -/
def poissonLoop (L : ℚ) : ℕ → ℚ → List ℚ → Option ℤ
  | _, _, [] => none
  | k, p, u :: rest =>
      if L < p * u then poissonLoop L (k + 1) (p * u) rest
      else some (((k + 1 : ℕ) : ℤ) - 1)

/-- `generatePoissonScore` (src/basket.js:160-169) with the threshold
`L = Math.exp(-lambda)` precomputed and the stream of `Math.random()`
draws explicit: start with `k = 0`, `p = 1`. -/
def generatePoissonScore (L : ℚ) (draws : List ℚ) : Option ℤ :=
  poissonLoop L 0 1 draws

/-- `calculateExpectedPoints` (src/basket.js:153-158):
`80 + (opponentRanking - teamRanking) * 0.1`. -/
def calculateExpectedPoints (teamRanking opponentRanking : ℚ) : ℚ :=
  80 + (opponentRanking - teamRanking) * (1 / 10)

/-- The two lambdas computed by `simulateGamePoisson` (src/basket.js:145-151)
before the Poisson draws: expected points plus the form parameter, whose
default value is 0. -/
def simulateGamePoissonLambdas (r1 r2 form1 form2 : ℚ) : ℚ × ℚ :=
  (calculateExpectedPoints r1 r2 + form1, calculateExpectedPoints r2 r1 + form2)

/-! ## Cumulative form (src/basket.js:56-78) -/

/-- One exhibition match entry, with the result string already split into
the two goal numbers (`match.Result.split('-')`, src/basket.js:69). -/
structure ExhMatch where
  teamGoals : ℤ
  opponentGoals : ℤ
deriving DecidableEq

/-- The `cumulativeDifference` accumulation over one team's exhibition
matches (src/basket.js:65-72). -/
def cumulativeDifference (ms : List ExhMatch) : ℤ :=
  ms.foldl (fun acc m => acc + (m.teamGoals - m.opponentGoals)) 0

/-- `calculateCumulativeForm` (src/basket.js:56-78): iterate the exhibition
entries in order; an entry whose matches value is not an array (`none`
here) is skipped with a console message and contributes no form entry;
every other entry contributes its cumulative goal difference under the
team's key. -/
def calculateCumulativeForm (exh : List (String × Option (List ExhMatch))) :
    List (String × ℤ) :=
  exh.filterMap (fun e =>
    match e.2 with
    | none => none
    | some ms => some (e.1, cumulativeDifference ms))

/-- The lookup `this.teamForms[name]` (src/basket.js:304): `none` models the
JavaScript `undefined` for an absent key. -/
def lookupForm (forms : List (String × ℤ)) (name : String) : Option ℤ :=
  (forms.find? (fun q => decide (q.1 = name))).map (fun q => q.2)

/-- Passing a possibly-`undefined` form into `simulateGamePoisson`:
JavaScript default parameters replace an `undefined` argument by the
default, here `form = 0` (src/basket.js:145). -/
def formOrDefault (o : Option ℤ) : ℤ := o.getD 0

/-- The first lambda of a knockout-round match as called at
src/basket.js:304: team 1's form is looked up by name and defaults to 0
when absent. -/
def knockoutMatchLambdas (forms : List (String × ℤ)) (r1 r2 : ℚ) (n1 n2 : String) :
    ℚ × ℚ :=
  simulateGamePoissonLambdas r1 r2
    ((formOrDefault (lookupForm forms n1) : ℤ) : ℚ)
    ((formOrDefault (lookupForm forms n2) : ℤ) : ℚ)

/-! ## Helper lemmas about the draw -/

lemma pairLoop_fst_append (played : TeamId → TeamId → Bool) (tgt : List TeamId) :
    ∀ (src : List TeamId) (acc : List (TeamId × TeamId) × List TeamId),
      ∃ zs, (pairLoop played tgt src acc).1 = acc.1 ++ zs ∧
        ∀ p ∈ zs, p.1 ∈ src ∧ p.2 ∈ tgt ∧ played p.1 p.2 = false := by
  intro src
  induction src with
  | nil => exact fun acc => ⟨[], by simp [pairLoop], by simp⟩
  | cons t1 rest ih =>
      intro acc
      rcases hopp : findOpponent played acc.2 t1 tgt with _ | opp
      · obtain ⟨zs, hz1, hz2⟩ := ih acc
        refine ⟨zs, by simpa [pairLoop, hopp] using hz1, ?_⟩
        intro p hp
        obtain ⟨h1, h2, h3⟩ := hz2 p hp
        exact ⟨List.mem_cons_of_mem _ h1, h2, h3⟩
      · have hopp' : tgt.find?
            (fun o => !isMatchAlreadyPlayed played t1 o && !decide (o ∈ acc.2)) = some opp := hopp
        have hmem : opp ∈ tgt := List.mem_of_find?_eq_some hopp'
        have hpred := List.find?_some hopp'
        have hplayed : played t1 opp = false := by
          simp [isMatchAlreadyPlayed] at hpred
          exact hpred.1
        obtain ⟨zs, hz1, hz2⟩ := ih (acc.1 ++ [(t1, opp)], acc.2 ++ [t1, opp])
        refine ⟨(t1, opp) :: zs, ?_, ?_⟩
        · simp only [pairLoop, hopp]
          rw [hz1]
          simp
        · intro p hp
          rcases (by simpa using hp : p = (t1, opp) ∨ p ∈ zs) with hp | hp
          · subst hp
            exact ⟨by simp, hmem, hplayed⟩
          · obtain ⟨h1, h2, h3⟩ := hz2 p hp
            exact ⟨List.mem_cons_of_mem _ h1, h2, h3⟩

lemma pairLoop_length (played : TeamId → TeamId → Bool) (tgt : List TeamId) :
    ∀ (src : List TeamId) (acc : List (TeamId × TeamId) × List TeamId),
      (pairLoop played tgt src acc).1.length ≤ acc.1.length + src.length := by
  intro src
  induction src with
  | nil => intro acc; simp [pairLoop]
  | cons t1 rest ih =>
      intro acc
      rcases hopp : findOpponent played acc.2 t1 tgt with _ | opp
      · simp only [pairLoop, hopp]
        have := ih acc
        simp only [List.length_cons]
        omega
      · simp only [pairLoop, hopp]
        have := ih (acc.1 ++ [(t1, opp)], acc.2 ++ [t1, opp])
        simp only [List.length_append, List.length_cons] at this ⊢
        simp at this
        omega

lemma teamsOf_append : ∀ a b : List (TeamId × TeamId), teamsOf (a ++ b) = teamsOf a ++ teamsOf b := by
  intro a b
  induction a with
  | nil => simp [teamsOf]
  | cons p rest ih => simp [teamsOf, ih]

lemma teamsOf_length : ∀ qf : List (TeamId × TeamId), (teamsOf qf).length = 2 * qf.length := by
  intro qf
  induction qf with
  | nil => simp [teamsOf]
  | cons p rest ih => simp [teamsOf, ih]; omega

lemma pairLoop_used_teamsOf (played : TeamId → TeamId → Bool) (tgt : List TeamId) :
    ∀ (src : List TeamId) (acc : List (TeamId × TeamId) × List TeamId),
      acc.2 = teamsOf acc.1 →
      (pairLoop played tgt src acc).2 = teamsOf (pairLoop played tgt src acc).1 := by
  intro src
  induction src with
  | nil => intro acc h; simpa [pairLoop] using h
  | cons t1 rest ih =>
      intro acc h
      rcases hopp : findOpponent played acc.2 t1 tgt with _ | opp
      · simp only [pairLoop, hopp]
        exact ih acc h
      · simp only [pairLoop, hopp]
        apply ih
        simp [teamsOf_append, teamsOf, h]

lemma pairLoop_used_nodup (played : TeamId → TeamId → Bool) (tgt : List TeamId) :
    ∀ (src : List TeamId) (acc : List (TeamId × TeamId) × List TeamId),
      acc.2.Nodup → src.Nodup → (∀ t ∈ src, t ∉ acc.2 ∧ t ∉ tgt) →
      (pairLoop played tgt src acc).2.Nodup ∧
        ∀ x ∈ (pairLoop played tgt src acc).2, x ∈ acc.2 ∨ x ∈ src ∨ x ∈ tgt := by
  intro src
  induction src with
  | nil =>
      intro acc h _ _
      refine ⟨by simpa [pairLoop] using h, fun x hx => Or.inl (by simpa [pairLoop] using hx)⟩
  | cons t1 rest ih =>
      intro acc hnd hsrc hdisj
      have ht1 := hdisj t1 (by simp)
      have hrest0 : ∀ t ∈ rest, t ∉ acc.2 ∧ t ∉ tgt :=
        fun t ht => hdisj t (List.mem_cons_of_mem _ ht)
      rcases hopp : findOpponent played acc.2 t1 tgt with _ | opp
      · simp only [pairLoop, hopp]
        obtain ⟨h1, h2⟩ := ih acc hnd hsrc.of_cons hrest0
        refine ⟨h1, ?_⟩
        intro x hx
        rcases h2 x hx with h | h | h
        · exact Or.inl h
        · exact Or.inr (Or.inl (List.mem_cons_of_mem _ h))
        · exact Or.inr (Or.inr h)
      · have hopp' : tgt.find?
            (fun o => !isMatchAlreadyPlayed played t1 o && !decide (o ∈ acc.2)) = some opp := hopp
        have hmem : opp ∈ tgt := List.mem_of_find?_eq_some hopp'
        have hpred := List.find?_some hopp'
        have hoppused : opp ∉ acc.2 := by
          simp [isMatchAlreadyPlayed] at hpred
          exact hpred.2
        have ht1opp : t1 ≠ opp := fun h => ht1.2 (h ▸ hmem)
        have hnd' : (acc.2 ++ [t1, opp]).Nodup := by
          rw [List.nodup_append]
          refine ⟨hnd, by simp [ht1opp], ?_⟩
          intro a ha hb
          rcases (by simpa using hb : a = t1 ∨ a = opp) with rfl | rfl
          · exact ht1.1 ha
          · exact hoppused ha
        have hrest' : ∀ t ∈ rest, t ∉ acc.2 ++ [t1, opp] ∧ t ∉ tgt := by
          intro t ht
          have hta := hrest0 t ht
          have htne : t ≠ t1 := fun h => (List.nodup_cons.mp hsrc).1 (h ▸ ht)
          have htopp : t ≠ opp := fun h => hta.2 (h ▸ hmem)
          refine ⟨?_, hta.2⟩
          intro hmem'
          rcases (by simpa using hmem' : t ∈ acc.2 ∨ t = t1 ∨ t = opp) with h | h | h
          · exact hta.1 h
          · exact htne h
          · exact htopp h
        simp only [pairLoop, hopp]
        obtain ⟨h1, h2⟩ := ih (acc.1 ++ [(t1, opp)], acc.2 ++ [t1, opp]) hnd' hsrc.of_cons hrest'
        refine ⟨h1, ?_⟩
        intro x hx
        rcases h2 x hx with h | h | h
        · rcases (by simpa using h : x ∈ acc.2 ∨ x = t1 ∨ x = opp) with h | h | h
          · exact Or.inl h
          · exact Or.inr (Or.inl (by simp [h]))
          · exact Or.inr (Or.inr (h ▸ hmem))
        · exact Or.inr (Or.inl (List.mem_cons_of_mem _ h))
        · exact Or.inr (Or.inr h)

lemma mem_reorderTeams {x : TeamId} : ∀ l : List TeamId, x ∈ reorderTeams l ↔ x ∈ l := by
  intro l
  cases l with
  | nil => simp [reorderTeams]
  | cons a as =>
      simp only [reorderTeams, List.mem_append, List.mem_singleton, List.mem_cons]
      tauto

lemma mem_of_nodup_len_eight (l : List TeamId) (hnd : l.Nodup) (hlen : l.length = 8) :
    ∀ t : TeamId, t ∈ l := by
  intro t
  have huniv : l.toFinset = Finset.univ := by
    apply Finset.eq_univ_of_card
    rw [List.toFinset_card_of_nodup hnd, hlen]
    simp
  have := Finset.mem_univ t
  rw [← huniv] at this
  exact List.mem_toFinset.mp this

lemma countP_eq_zero_of_count_zero (t : TeamId) :
    ∀ qf : List (TeamId × TeamId), (teamsOf qf).count t = 0 →
      qf.countP (fun p => decide (p.1 = t) || decide (p.2 = t)) = 0 := by
  intro qf
  induction qf with
  | nil => intro _; rfl
  | cons p rest ih =>
      intro h
      simp only [teamsOf, List.count_cons, beq_iff_eq] at h
      by_cases e1 : p.1 = t
      · exfalso
        rw [if_pos e1] at h
        omega
      · rw [if_neg e1] at h
        by_cases e2 : p.2 = t
        · exfalso
          rw [if_pos e2] at h
          omega
        · rw [if_neg e2] at h
          have hr := ih (by omega)
          simp [List.countP_cons, e1, e2, hr]

lemma countP_eq_one_of_count_one (t : TeamId) :
    ∀ qf : List (TeamId × TeamId), (teamsOf qf).count t = 1 →
      qf.countP (fun p => decide (p.1 = t) || decide (p.2 = t)) = 1 := by
  intro qf
  induction qf with
  | nil => intro h; exact absurd h (by simp [teamsOf])
  | cons p rest ih =>
      intro h
      simp only [teamsOf, List.count_cons, beq_iff_eq] at h
      by_cases e1 : p.1 = t <;> by_cases e2 : p.2 = t
      · exfalso
        rw [if_pos e1, if_pos e2] at h
        omega
      · rw [if_pos e1, if_neg e2] at h
        have hr := countP_eq_zero_of_count_zero t rest (by omega)
        simp [List.countP_cons, e1, hr]
      · rw [if_neg e1, if_pos e2] at h
        have hr := countP_eq_zero_of_count_zero t rest (by omega)
        simp [List.countP_cons, e2, hr]
      · rw [if_neg e1, if_neg e2] at h
        have hr := ih (by omega)
        simp [List.countP_cons, e1, e2, hr]

lemma tryPairing_pairs (played : TeamId → TeamId → Bool) (h : Hats) :
    ∀ p ∈ tryPairing played h,
      ((p.1 ∈ h.D ∧ p.2 ∈ h.G) ∨ (p.1 ∈ h.E ∧ p.2 ∈ h.F)) ∧ played p.1 p.2 = false := by
  intro p hp
  obtain ⟨zs1, hz1, hz1p⟩ := pairLoop_fst_append played h.G h.D ([], [])
  obtain ⟨zs2, hz2, hz2p⟩ :=
    pairLoop_fst_append played h.F h.E (pairLoop played h.G h.D ([], []))
  rw [tryPairing, hz2, hz1] at hp
  simp only [List.nil_append, List.mem_append] at hp
  rcases hp with hp | hp
  · obtain ⟨m1, m2, m3⟩ := hz1p p hp
    exact ⟨Or.inl ⟨m1, m2⟩, m3⟩
  · obtain ⟨m1, m2, m3⟩ := hz2p p hp
    exact ⟨Or.inr ⟨m1, m2⟩, m3⟩

lemma tryPairing_teams (played : TeamId → TeamId → Bool) (h : Hats)
    (hD : h.D.Nodup) (hE : h.E.Nodup)
    (hDG : ∀ t ∈ h.D, t ∉ h.G)
    (hED : ∀ t ∈ h.E, t ∉ h.D) (hEG : ∀ t ∈ h.E, t ∉ h.G) (hEF : ∀ t ∈ h.E, t ∉ h.F) :
    (teamsOf (tryPairing played h)).Nodup := by
  have hinner := pairLoop_used_nodup played h.G h.D ([], []) (by simp) hD
    (fun t ht => ⟨by simp, hDG t ht⟩)
  have hteams1 : (pairLoop played h.G h.D ([], [])).2 =
      teamsOf (pairLoop played h.G h.D ([], [])).1 :=
    pairLoop_used_teamsOf played h.G h.D ([], []) (by simp [teamsOf])
  have hEdisj : ∀ t ∈ h.E, t ∉ (pairLoop played h.G h.D ([], [])).2 ∧ t ∉ h.F := by
    intro t ht
    refine ⟨?_, hEF t ht⟩
    intro hmem
    rcases hinner.2 t hmem with hc | hc | hc
    · simp at hc
    · exact hED t ht hc
    · exact hEG t ht hc
  have houter := pairLoop_used_nodup played h.F h.E (pairLoop played h.G h.D ([], []))
    hinner.1 hE hEdisj
  have hteams2 : (pairLoop played h.F h.E (pairLoop played h.G h.D ([], []))).2 =
      teamsOf (pairLoop played h.F h.E (pairLoop played h.G h.D ([], []))).1 :=
    pairLoop_used_teamsOf played h.F h.E _ hteams1
  rw [tryPairing, ← hteams2]
  exact houter.1

lemma tryPairing_valid (played : TeamId → TeamId → Bool) (h : Hats)
    (hD : h.D.Nodup) (hE : h.E.Nodup)
    (hDG : ∀ t ∈ h.D, t ∉ h.G)
    (hED : ∀ t ∈ h.E, t ∉ h.D) (hEG : ∀ t ∈ h.E, t ∉ h.G) (hEF : ∀ t ∈ h.E, t ∉ h.F)
    (hlen : (tryPairing played h).length = 4) :
    (∀ p ∈ tryPairing played h,
      ((p.1 ∈ h.D ∧ p.2 ∈ h.G) ∨ (p.1 ∈ h.E ∧ p.2 ∈ h.F)) ∧ played p.1 p.2 = false) ∧
    ∀ t : TeamId,
      (tryPairing played h).countP (fun p => decide (p.1 = t) || decide (p.2 = t)) = 1 := by
  refine ⟨tryPairing_pairs played h, ?_⟩
  intro t
  have hnd := tryPairing_teams played h hD hE hDG hED hEG hEF
  have hlen8 : (teamsOf (tryPairing played h)).length = 8 := by
    rw [teamsOf_length, hlen]
  have hmem := mem_of_nodup_len_eight _ hnd hlen8 t
  have hcount : (teamsOf (tryPairing played h)).count t = 1 :=
    List.count_eq_one_of_mem hnd hmem
  exact countP_eq_one_of_count_one t _ hcount

lemma rotateHats_rotateHats : rotateHats (rotateHats initHats) = initHats := by
  decide

lemma draw_states (played : TeamId → TeamId → Bool) :
    ∀ (fuel : ℕ) (h : Hats) (qf : List (TeamId × TeamId)),
      (h = initHats ∨ h = rotateHats initHats) →
      drawKnockoutStage played fuel h = some qf →
      (qf = tryPairing played initHats ∨ qf = tryPairing played (rotateHats initHats)) ∧
        qf.length = 4 := by
  intro fuel
  induction fuel with
  | zero =>
      intro h qf _ hdraw
      simp [drawKnockoutStage] at hdraw
  | succ n ih =>
      intro h qf hh hdraw
      simp only [drawKnockoutStage] at hdraw
      by_cases hl : (tryPairing played h).length = 4
      · rw [if_pos hl] at hdraw
        have hq : tryPairing played h = qf := by
          exact Option.some_injective _ hdraw
        rcases hh with hh | hh
        · exact ⟨Or.inl (hq ▸ hh ▸ rfl), hq ▸ hh ▸ hl⟩
        · exact ⟨Or.inr (hq ▸ hh ▸ rfl), hq ▸ hh ▸ hl⟩
      · rw [if_neg hl] at hdraw
        apply ih (rotateHats h) qf _ hdraw
        rcases hh with hh | hh
        · exact Or.inr (by rw [hh])
        · exact Or.inl (by rw [hh, rotateHats_rotateHats])

lemma draw_none_of_both_fail (played : TeamId → TeamId → Bool)
    (h0 : (tryPairing played initHats).length ≠ 4)
    (h1 : (tryPairing played (rotateHats initHats)).length ≠ 4) :
    drawDiverges played initHats := by
  have key : ∀ (fuel : ℕ) (h : Hats), (h = initHats ∨ h = rotateHats initHats) →
      drawKnockoutStage played fuel h = none := by
    intro fuel
    induction fuel with
    | zero => intro h _; rfl
    | succ n ih =>
        intro h hh
        simp only [drawKnockoutStage]
        rcases hh with hh | hh
        · rw [hh, if_neg h0]
          exact ih _ (Or.inr rfl)
        · rw [hh, if_neg h1]
          exact ih _ (Or.inl rotateHats_rotateHats)
  exact fun fuel => key fuel initHats (Or.inl rfl)

/-! ## Claim theorems -/

/-- C2: every quarter-final list returned by `drawKnockoutStage` satisfies
the draw constraints: each pair is a hat-D team (ranks 1-2) against a hat-G
team (ranks 7-8) or a hat-E team (ranks 3-4) against a hat-F team (ranks
5-6), the paired teams have no recorded group-stage match, and each of the
8 teams appears in exactly one of the 4 returned pairs. -/
theorem C2_draw_returns_valid_bracket (played : TeamId → TeamId → Bool) (fuel : ℕ)
    (qf : List (TeamId × TeamId))
    (hdraw : drawKnockoutStage played fuel initHats = some qf) :
    validBracket played qf := by
  obtain ⟨hq, hlen⟩ := draw_states played fuel initHats qf (Or.inl rfl) hdraw
  rcases hq with hq | hq
  · subst hq
    obtain ⟨hpairs, hcount⟩ := tryPairing_valid played initHats (by decide) (by decide)
      (by decide) (by decide) (by decide) (by decide) hlen
    exact ⟨hlen, hpairs, hcount⟩
  · subst hq
    obtain ⟨hpairs, hcount⟩ := tryPairing_valid played (rotateHats initHats) (by decide)
      (by decide) (by decide) (by decide) (by decide) (by decide) hlen
    refine ⟨hlen, ?_, hcount⟩
    intro p hp
    obtain ⟨hmem, hpl⟩ := hpairs p hp
    refine ⟨?_, hpl⟩
    rcases hmem with ⟨m1, m2⟩ | ⟨m1, m2⟩
    · exact Or.inl ⟨m1, (mem_reorderTeams hatG0).mp m2⟩
    · exact Or.inr ⟨m1, (mem_reorderTeams hatF0).mp m2⟩

/-- Witness for C2: with an empty group-stage history the draw returns the
canonical bracket after one attempt, and it is valid. -/
theorem C2_witness :
    validBracket (fun _ _ => false) [(0, 6), (1, 7), (2, 4), (3, 5)] :=
  C2_draw_returns_valid_bracket (fun _ _ => false) 1 [(0, 6), (1, 7), (2, 4), (3, 5)]
    (by decide)

/-- C1 (amended): `drawKnockoutStage` terminates with a full bracket of 4
pairs as soon as the greedy attempt `tryPairing` succeeds on the initial
hats or on the hats with G and F each rotated once (the only two states the
retry loop ever visits); two attempts of fuel always suffice in that case.
The original claim, that mere existence of some valid assignment forces
termination, is refuted by `C1_counterexample`. -/
theorem C1_amended_terminates (played : TeamId → TeamId → Bool)
    (h : (tryPairing played initHats).length = 4 ∨
      (tryPairing played (rotateHats initHats)).length = 4) :
    ∃ qf, drawKnockoutStage played 2 initHats = some qf ∧ qf.length = 4 := by
  have e2 : drawKnockoutStage played 2 initHats =
      if (tryPairing played initHats).length = 4 then some (tryPairing played initHats)
      else if (tryPairing played (rotateHats initHats)).length = 4
        then some (tryPairing played (rotateHats initHats))
        else drawKnockoutStage played 0 (rotateHats (rotateHats initHats)) := rfl
  rcases h with h | h
  · exact ⟨tryPairing played initHats, by rw [e2, if_pos h], h⟩
  · by_cases h0 : (tryPairing played initHats).length = 4
    · exact ⟨tryPairing played initHats, by rw [e2, if_pos h0], h0⟩
    · exact ⟨tryPairing played (rotateHats initHats), by rw [e2, if_neg h0, if_pos h], h⟩

/-- Witness for the amended C1: with an empty history the first attempt
already succeeds. -/
theorem C1_amended_witness :
    ∃ qf, drawKnockoutStage (fun _ _ => false) 2 initHats = some qf ∧ qf.length = 4 :=
  C1_amended_terminates (fun _ _ => false) (Or.inl (by decide))

/-- Counterexample to C1 as stated: under the history `playedCE`
(rank 2 has played rank 7, rank 4 has played rank 6) the assignment
[(0,6), (1,7), (2,5), (3,4)] is a valid non-conflicting bracket under the
hat constraints, yet `drawKnockoutStage` never terminates: both reachable
rotation states make the greedy attempt produce only 3 pairs, and the loop
cycles between them forever. -/
theorem C1_counterexample :
    validBracket playedCE [(0, 6), (1, 7), (2, 5), (3, 4)] ∧
      drawDiverges playedCE initHats :=
  ⟨by decide, draw_none_of_both_fail playedCE (by decide) (by decide)⟩

/-- C6: contrary to the claim, the retry loop has no bound and surfaces no
error.  With a complete group-stage history (every pair already played) no
attempt can succeed, and the loop runs forever: the modelled
`drawKnockoutStage` returns `none` for every fuel value. -/
theorem C6_draw_loops_forever : drawDiverges playedComplete initHats :=
  draw_none_of_both_fail playedComplete (by decide) (by decide)

/-- C4: for every match applied by `updateMatchResults` with scores
(s1, s2), team 1's scored grows by exactly s1 and conceded by exactly s2
(symmetrically for team 2); on s1 > s2 team 1 gains exactly `WIN_POINTS`
and one win while team 2 gains exactly `LOSS_POINTS` and one loss
(symmetrically on s2 > s1); on a tie points, wins and losses of both teams
are left unchanged. -/
theorem C4_updateMatchResults_spec (t1 t2 : Team) (s1 s2 : ℕ) :
    ((updateMatchResults t1 t2 s1 s2).1.scored = t1.scored + s1 ∧
      (updateMatchResults t1 t2 s1 s2).1.conceded = t1.conceded + s2 ∧
      (updateMatchResults t1 t2 s1 s2).2.scored = t2.scored + s2 ∧
      (updateMatchResults t1 t2 s1 s2).2.conceded = t2.conceded + s1) ∧
    (if s1 > s2 then
      (updateMatchResults t1 t2 s1 s2).1.points = t1.points + WIN_POINTS ∧
      (updateMatchResults t1 t2 s1 s2).1.wins = t1.wins + 1 ∧
      (updateMatchResults t1 t2 s1 s2).1.losses = t1.losses ∧
      (updateMatchResults t1 t2 s1 s2).2.points = t2.points + LOSS_POINTS ∧
      (updateMatchResults t1 t2 s1 s2).2.losses = t2.losses + 1 ∧
      (updateMatchResults t1 t2 s1 s2).2.wins = t2.wins
    else if s2 > s1 then
      (updateMatchResults t1 t2 s1 s2).2.points = t2.points + WIN_POINTS ∧
      (updateMatchResults t1 t2 s1 s2).2.wins = t2.wins + 1 ∧
      (updateMatchResults t1 t2 s1 s2).2.losses = t2.losses ∧
      (updateMatchResults t1 t2 s1 s2).1.points = t1.points + LOSS_POINTS ∧
      (updateMatchResults t1 t2 s1 s2).1.losses = t1.losses + 1 ∧
      (updateMatchResults t1 t2 s1 s2).1.wins = t1.wins
    else
      (updateMatchResults t1 t2 s1 s2).1.points = t1.points ∧
      (updateMatchResults t1 t2 s1 s2).1.wins = t1.wins ∧
      (updateMatchResults t1 t2 s1 s2).1.losses = t1.losses ∧
      (updateMatchResults t1 t2 s1 s2).2.points = t2.points ∧
      (updateMatchResults t1 t2 s1 s2).2.wins = t2.wins ∧
      (updateMatchResults t1 t2 s1 s2).2.losses = t2.losses) := by
  by_cases hgt : s1 > s2
  · simp [updateMatchResults, updateScores, updatePoints, WIN_POINTS, LOSS_POINTS, hgt]
  · by_cases hlt : s2 > s1
    · simp [updateMatchResults, updateScores, updatePoints, WIN_POINTS, LOSS_POINTS, hgt, hlt]
    · simp [updateMatchResults, updateScores, updatePoints, hgt, hlt]

/-- C9: the accounting invariant points = WIN_POINTS * wins + LOSS_POINTS *
losses is preserved by every `updateMatchResults` application, for both
teams. -/
theorem C9_points_invariant (t1 t2 : Team) (s1 s2 : ℕ)
    (h1 : pointsInvariant t1) (h2 : pointsInvariant t2) :
    pointsInvariant (updateMatchResults t1 t2 s1 s2).1 ∧
      pointsInvariant (updateMatchResults t1 t2 s1 s2).2 := by
  simp only [pointsInvariant, WIN_POINTS, LOSS_POINTS] at h1 h2 ⊢
  by_cases hgt : s1 > s2
  · simp [updateMatchResults, updateScores, updatePoints, WIN_POINTS, LOSS_POINTS, hgt]
    omega
  · by_cases hlt : s2 > s1
    · simp [updateMatchResults, updateScores, updatePoints, WIN_POINTS, LOSS_POINTS, hgt, hlt]
      omega
    · simp [updateMatchResults, updateScores, updatePoints, hgt, hlt]
      omega

/-- Witness for C9: two fresh teams after a 3:2 match both satisfy the
invariant. -/
theorem C9_witness :
    pointsInvariant
      (updateMatchResults ⟨"X", 100, 0, 0, 0, 0, 0⟩ ⟨"Y", 90, 0, 0, 0, 0, 0⟩ 3 2).1 ∧
    pointsInvariant
      (updateMatchResults ⟨"X", 100, 0, 0, 0, 0, 0⟩ ⟨"Y", 90, 0, 0, 0, 0, 0⟩ 3 2).2 :=
  C9_points_invariant _ _ 3 2 rfl rfl

/-- C10: when the final's two simulated scores are equal, no penalty
shootout is run for the final (the shootout counter of the result equals
the counter reached after the semi-finals) and `simulateKnockoutStage`
returns the second finalist as both champion and runner-up. -/
theorem C10_tied_final_second_finalist (scores pens : ℕ → ℕ × ℕ)
    (qf : List (TeamId × TeamId)) (f1 f2 : TeamId) (rest : List TeamId) (mi pi : ℕ)
    (hpre : knockoutPrefix scores pens qf = (f1 :: f2 :: rest, mi, pi))
    (htie : (scores mi).1 = (scores mi).2) :
    simulateKnockoutStage scores pens qf = some ⟨f2, f2, pi⟩ := by
  simp only [simulateKnockoutStage, hpre, runFinal]
  simp [htie]

/-- Witness for C10: a concrete bracket with decisive quarter-finals and
semi-finals and a 2:2 final; the result names team 2 (the second finalist)
twice and records zero shootouts. -/
theorem C10_witness :
    simulateKnockoutStage (fun i => if i < 6 then (1, 0) else (2, 2)) (fun _ => (0, 0))
      [(0, 6), (1, 7), (2, 4), (3, 5)] = some ⟨2, 2, 0⟩ :=
  C10_tied_final_second_finalist (fun i => if i < 6 then (1, 0) else (2, 2))
    (fun _ => (0, 0)) [(0, 6), (1, 7), (2, 4), (3, 5)] 0 2 [] 6 0 (by decide) (by decide)

/-- C3 fails on the code: in a run whose quarter-finals and semi-finals are
decisive (2:1 each) and whose final ties 3:3, no penalty shootout is ever
run (the shootout count of the result is 0) and the returned champion and
runner-up are the same team, the second finalist — the final's tie is not
resolved and no distinct runner-up is produced. -/
theorem C3_tied_final_run :
    simulateKnockoutStage (fun i => if i < 6 then (2, 1) else (3, 3)) (fun _ => (4, 4))
      [(0, 6), (1, 7), (2, 4), (3, 5)] = some ⟨2, 2, 0⟩ := by
  decide

/-- C5 (amended): the penalty shootout returns two integers each in [0,5);
when a quarter-final or semi-final ties, exactly one shootout is consulted
and team 2 advances whenever team 1's shootout score is not strictly
higher — in particular a tied shootout is not re-invoked and sends team 2
through. -/
theorem C5_shootout_behaviour :
    (∀ u1 u2 : ℚ, 0 ≤ u1 → u1 < 1 → 0 ≤ u2 → u2 < 1 →
      (simulatePenaltyShootout u1 u2).1 < 5 ∧ (simulatePenaltyShootout u1 u2).2 < 5) ∧
    (∀ (scores pens : ℕ → ℕ × ℕ) (mi pi : ℕ) (t1 t2 : TeamId),
      (scores mi).1 = (scores mi).2 → (pens pi).1 ≤ (pens pi).2 →
      playMatch scores pens mi pi t1 t2 = (t2, pi + 1)) := by
  constructor
  · intro u1 u2 hu10 hu11 hu20 hu21
    constructor
    · have h5 : u1 * 5 < 5 := by linarith
      have hf : ⌊u1 * 5⌋ < (5 : ℤ) := by
        rw [Int.floor_lt]
        push_cast
        linarith
      simp only [simulatePenaltyShootout]
      omega
    · have h5 : u2 * 5 < 5 := by linarith
      have hf : ⌊u2 * 5⌋ < (5 : ℤ) := by
        rw [Int.floor_lt]
        push_cast
        linarith
      simp only [simulatePenaltyShootout]
      omega
  · intro scores pens mi pi t1 t2 htie hle
    simp only [playMatch]
    rw [if_pos htie, if_neg (Nat.not_lt.mpr hle)]

/-- Witness for the amended C5. -/
theorem C5_witness :
    ((simulatePenaltyShootout (1/2) (1/4)).1 < 5 ∧
      (simulatePenaltyShootout (1/2) (1/4)).2 < 5) ∧
    playMatch (fun _ => (1, 1)) (fun _ => (0, 3)) 0 0 4 5 = (5, 1) :=
  ⟨C5_shootout_behaviour.1 (1/2) (1/4) (by norm_num) (by norm_num) (by norm_num)
      (by norm_num),
    C5_shootout_behaviour.2 (fun _ => (1, 1)) (fun _ => (0, 3)) 0 0 4 5 rfl
      (by norm_num)⟩

/-- Counterexample to C5 as stated: the shootout can itself tie (two equal
uniform draws give 2:2), and a knockout match whose scores tie is then
decided by that tied shootout — team 2 advances after exactly one shootout
invocation, with no re-invocation until a strict winner emerges. -/
theorem C5_counterexample :
    simulatePenaltyShootout (1/2) (1/2) = (2, 2) ∧
    playMatch (fun _ => (2, 2)) (fun _ => (2, 2)) 0 0 0 1 = (1, 1) := by
  constructor
  · have hf : ⌊(1/2 : ℚ) * 5⌋ = 2 := by
      rw [Int.floor_eq_iff]
      constructor <;> norm_num
    unfold simulatePenaltyShootout
    rw [hf]
    rfl
  · decide

lemma poissonLoop_nonneg (L : ℚ) :
    ∀ (draws : List ℚ) (k : ℕ) (p : ℚ) (n : ℤ),
      poissonLoop L k p draws = some n → 0 ≤ n := by
  intro draws
  induction draws with
  | nil =>
      intro k p n h
      exact absurd h (by simp [poissonLoop])
  | cons u rest ih =>
      intro k p n h
      simp only [poissonLoop] at h
      by_cases hc : L < p * u
      · rw [if_pos hc] at h
        exact ih (k + 1) (p * u) n h
      · rw [if_neg hc] at h
        have hn : ((k + 1 : ℕ) : ℤ) - 1 = n := by
          simpa using h
        omega

/-- C7: whenever `generatePoissonScore` returns, the returned integer k - 1
is non-negative (the loop increments k at least once before returning);
and in the degenerate case the threshold `L = exp (-lambda)` is at least 1
whenever lambda is non-positive, so the very first uniform draw — being
strictly below 1 — already ends the loop, which returns 0. -/
theorem C7_poisson_score_nonneg :
    (∀ (L : ℚ) (draws : List ℚ) (n : ℤ), generatePoissonScore L draws = some n → 0 ≤ n) ∧
    (∀ (L u : ℚ) (rest : List ℚ), 1 ≤ L → 0 ≤ u → u < 1 →
      generatePoissonScore L (u :: rest) = some 0) ∧
    (∀ lam : ℝ, lam ≤ 0 → 1 ≤ Real.exp (-lam)) := by
  refine ⟨?_, ?_, ?_⟩
  · intro L draws n h
    exact poissonLoop_nonneg L draws 0 1 n h
  · intro L u rest hL hu0 hu1
    have hcond : ¬L < 1 * u := by
      rw [one_mul]
      intro hc
      linarith
    simp only [generatePoissonScore, poissonLoop]
    rw [if_neg hcond]
    norm_num
  · intro lam hlam
    rw [← Real.exp_zero]
    exact Real.exp_le_exp.mpr (by linarith)

/-- Witness for C7 at the concrete threshold L = 1 (lambda = 0) and the
single draw 1/2. -/
theorem C7_witness :
    (0 : ℤ) ≤ 0 ∧ generatePoissonScore 1 [1/2] = some 0 ∧
      (1 : ℝ) ≤ Real.exp (-(0 : ℝ)) :=
  ⟨C7_poisson_score_nonneg.1 1 [1/2] 0
      (C7_poisson_score_nonneg.2.1 1 (1/2) [] le_rfl (by norm_num) (by norm_num)),
    C7_poisson_score_nonneg.2.1 1 (1/2) [] le_rfl (by norm_num) (by norm_num),
    C7_poisson_score_nonneg.2.2 0 le_rfl⟩

lemma keys_nodup_val_eq {γ : Type} :
    ∀ (l : List (String × γ)) (k : String) (v w : γ),
      (l.map Prod.fst).Nodup → (k, v) ∈ l → (k, w) ∈ l → v = w := by
  intro l
  induction l with
  | nil =>
      intro k v w _ hv _
      exact absurd hv (by simp)
  | cons a rest ih =>
      intro k v w hnd hv hw
      simp only [List.map_cons, List.nodup_cons] at hnd
      rcases List.mem_cons.mp hv with hv1 | hv1
      · rcases List.mem_cons.mp hw with hw1 | hw1
        · have h2 := congrArg Prod.snd (hv1.trans hw1.symm)
          simpa using h2
        · exfalso
          have hk : k ∈ rest.map Prod.fst := by
            have := List.mem_map_of_mem Prod.fst hw1
            simpa using this
          have ha : k = a.1 := by rw [← hv1]
          exact hnd.1 (ha ▸ hk)
      · rcases List.mem_cons.mp hw with hw1 | hw1
        · exfalso
          have hk : k ∈ rest.map Prod.fst := by
            have := List.mem_map_of_mem Prod.fst hv1
            simpa using this
          have ha : k = a.1 := by rw [← hw1]
          exact hnd.1 (ha ▸ hk)
        · exact ih k v w hnd.2 hv1 hw1

/-- C8: a team whose exhibition entry is not an array is skipped by
`calculateCumulativeForm` (the function is total, nothing aborts, and the
team gets no form entry), so the knockout-round lookup of that team's form
yields `undefined` (`none`), the default parameter 0 kicks in, and the
lambda used for that team is exactly the bare expected-points value. -/
theorem C8_malformed_entry_defaults_to_zero
    (exh : List (String × Option (List ExhMatch))) (name : String)
    (hnd : (exh.map Prod.fst).Nodup)
    (hmem : (name, (none : Option (List ExhMatch))) ∈ exh) :
    lookupForm (calculateCumulativeForm exh) name = none ∧
    ∀ (r1 r2 : ℚ) (n2 : String),
      (knockoutMatchLambdas (calculateCumulativeForm exh) r1 r2 name n2).1 =
        calculateExpectedPoints r1 r2 := by
  have hlook : lookupForm (calculateCumulativeForm exh) name = none := by
    rcases hfind : (calculateCumulativeForm exh).find? (fun q => decide (q.1 = name))
      with _ | q
    · simp [lookupForm, hfind]
    · exfalso
      have hqpred := List.find?_some hfind
      have hqname : q.1 = name := by simpa using hqpred
      have hqmem := List.mem_of_find?_eq_some hfind
      rw [calculateCumulativeForm] at hqmem
      obtain ⟨e, he, hfe⟩ := List.mem_filterMap.mp hqmem
      obtain ⟨ea, eb⟩ := e
      rcases eb with _ | ms
      · simp at hfe
      · have hq : (ea, cumulativeDifference ms) = q := Option.some_injective _ hfe
        have hea : ea = name := by
          rw [← hqname, ← hq]
        have hcontra :=
          keys_nodup_val_eq exh name (none : Option (List ExhMatch)) (some ms) hnd hmem
            (hea ▸ he)
        simp at hcontra
  refine ⟨hlook, ?_⟩
  intro r1 r2 n2
  simp [knockoutMatchLambdas, simulateGamePoissonLambdas, formOrDefault, hlook]

/-- Witness for C8: team AAA has a malformed (non-array) entry, team BBB a
proper one; AAA's form lookup is `none` and AAA's knockout lambda is the
bare expected-points value. -/
theorem C8_witness :
    lookupForm (calculateCumulativeForm [("AAA", none), ("BBB", some [⟨3, 1⟩])]) "AAA" =
      none ∧
    (knockoutMatchLambdas (calculateCumulativeForm [("AAA", none), ("BBB", some [⟨3, 1⟩])])
      1 2 "AAA" "BBB").1 = calculateExpectedPoints 1 2 :=
  ⟨(C8_malformed_entry_defaults_to_zero [("AAA", none), ("BBB", some [⟨3, 1⟩])] "AAA"
      (by decide) (by decide)).1,
    (C8_malformed_entry_defaults_to_zero [("AAA", none), ("BBB", some [⟨3, 1⟩])] "AAA"
      (by decide) (by decide)).2 1 2 "BBB"⟩
